import Mathlib

/-
  Verification development for the vGPU device manager core:
  the vGPU type-name grammar (pkg/types), the VGPUConfig validation,
  the two backend device abstractions (internal/vgpu/mdev.go and
  internal/vgpu/vfio.go) and the allocation/reconciliation engine
  (pkg/vgpu/config.go).

  Strings are modelled as lists of characters.  Go's int is modelled as
  Int with the strconv.Atoi 64-bit range check made explicit.
-/

namespace VGPUDM

abbrev Str := List Char

/-! ### Character classes used by the two type-name regular expressions -/

def isUpperDigitChar (c : Char) : Bool :=
  (decide ('A' ≤ c) && decide (c ≤ 'Z')) || (decide ('0' ≤ c) && decide (c ≤ '9'))

def isAlphaChar (c : Char) : Bool :=
  (decide ('A' ≤ c) && decide (c ≤ 'Z')) || (decide ('a' ≤ c) && decide (c ≤ 'z'))

def isDigitChar (c : Char) : Bool :=
  decide ('0' ≤ c) && decide (c ≤ '9')

def isNonZeroDigitChar (c : Char) : Bool :=
  decide ('1' ≤ c) && decide (c ≤ '9')

/-- The series constants of pkg/types (part_007): Q = 81, A = 65, B = 66,
C = 67, i.e. the bytes of the letters; we model Series as Char. -/
abbrev Series := Char

/-- Series.IsValid (part_007:38). -/
def seriesIsValid (s : Series) : Bool :=
  s = 'A' || s = 'B' || s = 'C' || s = 'Q'

/-! ### Decimal numbers: strconv.Atoi and fmt %d formatting -/

def charVal (c : Char) : Nat := c.toNat - 48

/-- Numeric value of a (big-endian) decimal digit string. -/
def digitsVal (l : Str) : Nat := Nat.ofDigits 10 ((l.map charVal).reverse)

/-- Largest value of a 64-bit Go int. -/
def maxGoInt : Nat := 9223372036854775807

/-- strconv.Atoi: optional sign, non-empty digit string, 64-bit range. -/
def atoiModel (l : Str) : Option Int :=
  match l with
  | [] => none
  | c :: ds =>
    if c = '-' then
      if ds.isEmpty || !(ds.all isDigitChar) then none
      else if digitsVal ds ≤ maxGoInt + 1 then some (-(digitsVal ds : Int)) else none
    else if c = '+' then
      if ds.isEmpty || !(ds.all isDigitChar) then none
      else if digitsVal ds ≤ maxGoInt then some (digitsVal ds : Int) else none
    else
      if !((c :: ds).all isDigitChar) then none
      else if digitsVal (c :: ds) ≤ maxGoInt then some (digitsVal (c :: ds) : Int)
      else none

/-- Decimal digits of n, most significant first, via an explicit fuel so the
kernel can evaluate it (fuel ≥ n suffices). -/
def natToDecAux : Nat → Nat → Str
  | 0, _ => []
  | fuel + 1, n =>
    if n = 0 then []
    else natToDecAux fuel (n / 10) ++ [Char.ofNat (48 + n % 10)]

/-- fmt %d rendering of a non-negative integer. -/
def natToDec (n : Nat) : Str :=
  if n = 0 then ['0'] else natToDecAux n n

/-- fmt %d rendering of a Go int. -/
def intToDec (i : Int) : Str :=
  if i < 0 then '-' :: natToDec (-i).toNat else natToDec i.toNat

/-! ### Splitting a string at the dashes -/

/-- Split at every occurrence of the dash character (n dashes give n+1 parts;
the result is never empty). -/
def splitDash : Str → List Str
  | [] => [[]]
  | c :: rest =>
    match splitDash rest with
    | [] => [[]]
    | p :: ps => if c = '-' then [] :: p :: ps else (c :: p) :: ps

/-- Re-join parts with a dash between consecutive parts. -/
def joinDash : List Str → Str
  | [] => []
  | [p] => p
  | p :: q :: ps => p ++ '-' :: joinDash (q :: ps)

/-! ### The vGPU type grammar (part_008) -/

/-- Canonical decimal group of the regexes: 0|[1-9][0-9]*. -/
def canonNum : Str → Bool
  | [] => false
  | [c] => isDigitChar c
  | c :: rest => isNonZeroDigitChar c && rest.all isDigitChar

/-- The attribute tokens ME, NOME, MEALL, GFX (part_008:26). -/
def attributeMediaExtensions : Str := ['M', 'E']

def attributeNoMediaExtensions : Str := ['N', 'O', 'M', 'E']

def attributeMediaExtensionsAll : Str := ['M', 'E', 'A', 'L', 'L']

def attributeGraphics : Str := ['G', 'F', 'X']

/-- The optional ATTR group of migBackedRegex: (ME|NOME|MEALL|GFX)? -/
def isAttrToken (a : Str) : Bool :=
  a = attributeMediaExtensions || a = attributeNoMediaExtensions ||
  a = attributeMediaExtensionsAll || a = attributeGraphics

/-- Capture groups of timeSlicedRegex
^(GPU:[A-Z0-9]+(-([a-zA-Z]+))*)-(GB:0|[1-9][0-9]*)(S:A|B|C|Q)$ -/
structure TSGroups where
  gpu : Str
  gb : Str
  s : Char
deriving DecidableEq

/-- Capture groups of migBackedRegex
^(GPU:[A-Z0-9]+)-(G:[1-9])-(GB:0|[1-9][0-9]*)(S:A|B|C|Q)(ATTR:(ME|NOME|MEALL|GFX))?$
The attr field is [] when the optional group did not participate, mirroring
the empty submatch Go reports for it. -/
structure MigGroups where
  gpu : Str
  g : Str
  gb : Str
  s : Char
  attr : Str
deriving DecidableEq

/-- Anchored match of timeSlicedRegex.  Neither the GB group nor the S group
can contain a dash, so the last dash of the string separates the GPU group
from GB, and the parts between earlier dashes are the starred ([a-zA-Z]+)
groups; GB is the maximal digit prefix of the last part because S is a
letter. -/
def matchTimeSliced (cs : Str) : Option TSGroups :=
  match (splitDash cs).reverse with
  | lastp :: restRev =>
    match restRev.reverse with
    | [] => none
    | p0 :: mid =>
      match lastp.dropWhile isDigitChar with
      | [sc] =>
        if (!p0.isEmpty) && p0.all isUpperDigitChar
            && mid.all (fun m => (!m.isEmpty) && m.all isAlphaChar)
            && canonNum (lastp.takeWhile isDigitChar) && seriesIsValid sc then
          some ⟨joinDash (p0 :: mid), lastp.takeWhile isDigitChar, sc⟩
        else none
      | _ => none
  | [] => none

/-- Anchored match of migBackedRegex.  The GPU and G groups contain no dash
and GB/S/ATTR contain no dash, so a match has exactly three dash-separated
parts; GB is the maximal digit prefix of the third part because S and all
attribute characters are letters, and the attribute alternatives all end in
distinct non-series letters so the split after S is unambiguous. -/
def matchMigBacked (cs : Str) : Option MigGroups :=
  match splitDash cs with
  | [p0, p1, p2] =>
    match p2.dropWhile isDigitChar with
    | sc :: attr =>
      if (!p0.isEmpty) && p0.all isUpperDigitChar
          && (match p1 with | [c] => isNonZeroDigitChar c | _ => false)
          && canonNum (p2.takeWhile isDigitChar) && seriesIsValid sc
          && (attr.isEmpty || isAttrToken attr) then
        some ⟨p0, p1, p2.takeWhile isDigitChar, sc, attr⟩
      else none
    | [] => none
  | _ => none

/-- VGPUType (part_008:50). -/
structure VGPUType where
  GPU : Str
  G : Int
  GB : Int
  S : Series
  Attr : List Str
deriving DecidableEq

inductive ParseErr where
  | emptyInput
  | malformed (s : Str)
  | badNumber (s : Str)
  | badSeries (c : Char)
deriving DecidableEq

/-- ParseVGPUType (part_008:59): try the time-sliced pattern, then the
MIG-backed pattern; Atoi the GB group, validate the series, and for a
MIG-backed match Atoi the G group and append the ATTR submatch (which Go
reports as the empty string when the optional group is absent). -/
def ParseVGPUType (cs : Str) : Except ParseErr VGPUType :=
  if cs.isEmpty then .error .emptyInput
  else
    match matchTimeSliced cs with
    | some gr =>
      match atoiModel gr.gb with
      | none => .error (.badNumber gr.gb)
      | some gb =>
        if seriesIsValid gr.s then .ok ⟨gr.gpu, 0, gb, gr.s, []⟩
        else .error (.badSeries gr.s)
    | none =>
      match matchMigBacked cs with
      | none => .error (.malformed cs)
      | some gr =>
        match atoiModel gr.gb with
        | none => .error (.badNumber gr.gb)
        | some gb =>
          if seriesIsValid gr.s then
            match atoiModel gr.g with
            | none => .error (.badNumber gr.g)
            | some g => .ok ⟨gr.gpu, g, gb, gr.s, [gr.attr]⟩
          else .error (.badSeries gr.s)

/-- VGPUType.String (part_008:129): time-sliced "GPU-GB S"; MIG-backed
"GPU-G-GB S" followed by the concatenation of Attr when Attr is non-empty. -/
def VGPUType.format (v : VGPUType) : Str :=
  if v.G = 0 then v.GPU ++ '-' :: intToDec v.GB ++ [v.S]
  else
    v.GPU ++ '-' :: intToDec v.G ++ '-' :: intToDec v.GB ++ v.S ::
      (if v.Attr.isEmpty then [] else v.Attr.flatten)

/-! ### VGPUConfig and AssertValid (part_009) -/

/-- A VGPUConfig is a Go map from type name to count; we model one concrete
iteration order of its entries as a list of pairs. -/
abbrev VGPUConfigL := List (Str × Int)

inductive AVErr where
  | invalidFormat (k : Str)
  | invalidCount (c : Int)
  | mixed
  | allZero
deriving DecidableEq

/-- The main loop of VGPUConfig.AssertValid (part_009:34-55), carrying the
idx counter and the migBacked flag exactly as the source does. -/
def assertLoop : VGPUConfigL → Nat → Bool → Except AVErr Unit
  | [], _, _ => .ok ()
  | (key, val) :: rest, idx, migBacked =>
    match ParseVGPUType key with
    | .error _ => .error (.invalidFormat key)
    | .ok t =>
      if val ≤ 0 then .error (.invalidCount val)
      else if 0 < t.G then
        if 0 < idx && !migBacked then .error .mixed
        else assertLoop rest (idx + 1) true
      else
        if 0 < idx && migBacked then .error .mixed
        else assertLoop rest (idx + 1) migBacked

/-- VGPUConfig.AssertValid (part_009:29): empty configs are valid; otherwise
run the main loop and finally reject configs whose counts are all ≤ 0. -/
def AssertValid (v : VGPUConfigL) : Except AVErr Unit :=
  if v.length = 0 then .ok ()
  else
    match assertLoop v 0 false with
    | .error e => .error e
    | .ok _ => if v.any (fun e => 0 < e.2) then .ok () else .error .allZero

/-- A key is MIG-backed when it parses with G > 0. -/
def isMigKey (k : Str) : Bool :=
  match ParseVGPUType k with
  | .ok t => 0 < t.G
  | .error _ => false

/-- A key is time-sliced when it parses with G = 0. -/
def isTimeSlicedKey (k : Str) : Bool :=
  match ParseVGPUType k with
  | .ok t => t.G = 0
  | .error _ => false

def parsesOk (k : Str) : Bool :=
  match ParseVGPUType k with
  | .ok _ => true
  | .error _ => false

/-! ### stripVGPUConfigSuffix (pkg/vgpu/config.go:195) -/

/-- strings.HasSuffix. -/
def hasSuffix (l suf : Str) : Bool := suf.isSuffixOf l

/-- strings.TrimSuffix. -/
def trimSuffix (l suf : Str) : Str :=
  if hasSuffix l suf then l.take (l.length - suf.length) else l

/-- The suffix probe order of stripVGPUConfigSuffix: MEALL first (it contains
ME), then NOME, ME, GFX. -/
def suffixProbeList : List Str :=
  [attributeMediaExtensionsAll, attributeNoMediaExtensions,
   attributeMediaExtensions, attributeGraphics]

/-- stripVGPUConfigSuffix (pkg/vgpu/config.go:195): remove the first matching
attribute suffix in probe order, or return the string unchanged. -/
def stripVGPUConfigSuffix (t : Str) : Str :=
  match suffixProbeList.find? (fun suf => hasSuffix t suf) with
  | some suf => trimSuffix t suf
  | none => t

/-! ### Mediated-device backend (internal/vgpu/mdev.go) -/

/-- Content of a supported type's available_instances pseudo-file: a value
that parses to an int, or an unreadable/unparseable file. -/
inductive AvailFile where
  | val (n : Int)
  | bad
deriving DecidableEq

/-- MDEVParentDevice (mdev.go:45): its own PCI address, the physical function
address it resolves to, and the map from supported canonical type name to the
supported-type directory, paired here with that directory's
available_instances content. -/
structure MDEVParent where
  addr : Nat
  pfAddr : Nat
  mdevPaths : List (Str × AvailFile)
deriving DecidableEq

def lookupType (ps : List (Str × AvailFile)) (t : Str) : Option AvailFile :=
  match ps.find? (fun p => p.1 == t) with
  | some p => some p.2
  | none => none

/-- IsMDEVTypeSupported (mdev.go:384): membership in the mdevPaths map. -/
def IsMDEVTypeSupported (p : MDEVParent) (t : Str) : Bool :=
  (lookupType p.mdevPaths t).isSome

/-- GetAvailableVGPUInstances (mdev.go:348) as the pair (count, error?):
(-1, no error) when the type is not in mdevPaths; (-1, error) when the
available_instances file cannot be read or parsed; (n, no error) otherwise. -/
def GetAvailableVGPUInstances (p : MDEVParent) (t : Str) : Int × Bool :=
  match lookupType p.mdevPaths t with
  | none => (-1, false)
  | some (.val n) => (n, false)
  | some .bad => (-1, true)

/-! ### VFIO backend (internal/vgpu/vfio.go) -/

/-- VFIOParentDevice (vfio.go:20): the physical function address and the
virtual function path, plus the lines of its creatable_vgpu_types listing,
each line already split into whitespace-delimited fields. -/
structure VfioParent where
  pfAddr : Nat
  vfPath : Str
  creatable : List (List Str)
deriving DecidableEq

/-- IsVGPUTypeAvailable (vfio.go:146): scan creatable_vgpu_types, skip lines
with fewer than two fields, compare the last field with the type name. -/
def vfioIsVGPUTypeAvailable (p : VfioParent) (t : Str) : Bool :=
  p.creatable.any (fun fields => decide (2 ≤ fields.length) && fields.getLastD [] == t)

/-- GetAvailableVGPUInstances (vfio.go:192): 1 when the type is currently
listed as creatable, 0 otherwise; never an error when the listing is
readable, and never a negative value. -/
def vfioGetAvailableVGPUInstances (p : VfioParent) (t : Str) : Int × Bool :=
  if vfioIsVGPUTypeAvailable p t then (1, false) else (0, false)

/-- GetIdForVGPUTypeName (vfio.go:104): scan the listing lines; skip lines
with fewer than two fields; take the last field as the name and Atoi the
first field; return the first id whose Atoi succeeded and whose name matches. -/
def GetIdForVGPUTypeName : List (List Str) → Str → Except Unit Int
  | [], _ => .error ()
  | fields :: rest, t =>
    if 2 ≤ fields.length then
      match atoiModel (fields.headD []) with
      | some n => if fields.getLastD [] == t then .ok n else GetIdForVGPUTypeName rest t
      | none => GetIdForVGPUTypeName rest t
    else GetIdForVGPUTypeName rest t

/-- CreateVGPUDevice (vfio.go:178): the second argument (the id hint) is
accepted but never used; the numeric id is resolved from the receiver's own
creatable_vgpu_types listing and written to the receiver's own
current_vgpu_type file.  The result is the (path, value) pair written. -/
def vfioCreateVGPUDevice (p : VfioParent) (t : Str) (vfnum : Str) :
    Except Unit (Str × Int) :=
  match GetIdForVGPUTypeName p.creatable t with
  | .error _ => .error ()
  | .ok n => .ok (p.vfPath ++ "/current_vgpu_type".data, n)

/-! ### The greedy creation phase: CreateVGPUDevices (mdev.go:404) -/

inductive VgpuErr where
  | noParents (addr : Nat)
  | availReadError
  | capacityExceeded (count : Int) (t : Str)
deriving DecidableEq

/-- The per-parent loop of CreateVGPUDevices (mdev.go:422-443): break at
remaining = 0, abort on an availability read error, skip parents reporting
≤ 0, create min(remaining, available) instances on each remaining parent.
Returns the (parent address, number created) pairs for each parent visited
past the break, the final remaining count, and the error if one occurred. -/
def createLoop (t : Str) : List MDEVParent → Int → List (Nat × Nat) × Int × Option VgpuErr
  | [], r => ([], r, none)
  | p :: rest, r =>
    if r = 0 then ([], 0, none)
    else if (GetAvailableVGPUInstances p t).2 then ([], r, some .availReadError)
    else if (GetAvailableVGPUInstances p t).1 ≤ 0 then
      ((p.addr, 0) :: (createLoop t rest r).1, (createLoop t rest r).2)
    else
      ((p.addr, (min r (GetAvailableVGPUInstances p t).1).toNat) ::
          (createLoop t rest (r - min r (GetAvailableVGPUInstances p t).1)).1,
        (createLoop t rest (r - min r (GetAvailableVGPUInstances p t).1)).2)

/-- CreateVGPUDevices (mdev.go:404): filter the parents backed by the target
physical function, fail when there are none, run the greedy loop, and fail
with the requested count and type when capacity was exhausted. -/
def CreateVGPUDevices (allParents : List MDEVParent) (addr : Nat) (t : Str)
    (count : Int) : List (Nat × Nat) × Option VgpuErr :=
  if (allParents.filter (fun p => p.pfAddr == addr)).isEmpty then
    ([], some (.noParents addr))
  else
    ((createLoop t (allParents.filter (fun p => p.pfAddr == addr)) count).1,
      match (createLoop t (allParents.filter (fun p => p.pfAddr == addr)) count).2.2 with
      | some e => some e
      | none =>
        if 0 < (createLoop t (allParents.filter (fun p => p.pfAddr == addr)) count).2.1 then
          some (.capacityExceeded count t)
        else none)

/-! ### The reconciliation engine: SetVGPUConfig / ClearVGPUConfig
(pkg/vgpu/config.go, first revision, lines 72-185) -/

/-- MDEVDevice (mdev.go:51) projected to the fields the engine reads. -/
structure MdevDevice where
  uuid : Nat
  mdevType : Str
  pfAddr : Nat
deriving DecidableEq

/-- Kernel-visible side effects of a reconciliation pass, in order. -/
inductive Effect where
  | delete (d : MdevDevice)
  | create (parentAddr : Nat) (t : Str)
deriving DecidableEq

def Effect.isDelete : Effect → Bool
  | .delete _ => true
  | .create _ _ => false

inductive SetErr where
  | noParents (gpu : Int)
  | unsupportedType (gpu : Int) (gpuAddr : Nat) (t : Str)
  | typeNotSupportedOnParent (t : Str) (gpuAddr : Nat)
  | availReadError
  | capacityExceeded (count : Int) (t : Str)
deriving DecidableEq

/-- Insertion into the sanitizedConfig Go map: overwrite an existing key or
append a new entry. -/
def upsert (m : VGPUConfigL) (k : Str) (v : Int) : VGPUConfigL :=
  if m.any (fun e => e.1 == k) then
    m.map (fun e => if e.1 == k then (k, v) else e)
  else m ++ [(k, v)]

/-- The sanitization loop of SetVGPUConfig (config.go:106-117): keep a key
the representative (first) parent supports, replace it by its stripped form
when only that is supported, and fail naming the GPU and the key otherwise. -/
def sanitizeConfig (rep : MDEVParent) (gpu : Int) (gpuAddr : Nat) :
    VGPUConfigL → VGPUConfigL → Except SetErr VGPUConfigL
  | acc, [] => .ok acc
  | acc, (key, val) :: rest =>
    if IsMDEVTypeSupported rep key then
      sanitizeConfig rep gpu gpuAddr (upsert acc key val) rest
    else if IsMDEVTypeSupported rep (stripVGPUConfigSuffix key) then
      sanitizeConfig rep gpu gpuAddr (upsert acc (stripVGPUConfigSuffix key) val) rest
    else .error (.unsupportedType gpu gpuAddr key)

/-- ClearVGPUConfig (config.go:163): delete every device whose physical
function resolves to the target GPU's address, in enumeration order. -/
def ClearVGPUConfig (devices : List MdevDevice) (gpuAddr : Nat) : List Effect :=
  (devices.filter (fun d => d.pfAddr == gpuAddr)).map Effect.delete

/-- The inline creation loop of the engine (config.go:126-153): like
createLoop but erroring out when a parent does not support the type. -/
def inlineCreateLoop (t : Str) (gpuAddr : Nat) :
    List MDEVParent → Int → List Effect × Int × Option SetErr
  | [], r => ([], r, none)
  | p :: rest, r =>
    if r = 0 then ([], 0, none)
    else if !IsMDEVTypeSupported p t then
      ([], r, some (.typeNotSupportedOnParent t gpuAddr))
    else if (GetAvailableVGPUInstances p t).2 then ([], r, some .availReadError)
    else if (GetAvailableVGPUInstances p t).1 ≤ 0 then
      inlineCreateLoop t gpuAddr rest r
    else
      (List.replicate (min r (GetAvailableVGPUInstances p t).1).toNat
          (Effect.create p.addr t) ++
          (inlineCreateLoop t gpuAddr rest
            (r - min r (GetAvailableVGPUInstances p t).1)).1,
        (inlineCreateLoop t gpuAddr rest
          (r - min r (GetAvailableVGPUInstances p t).1)).2)

/-- The creation phase of SetVGPUConfig (config.go:124-158): run the inline
loop for each sanitized entry, failing with the requested count and type when
capacity was exhausted. -/
def creationPhase (parents : List MDEVParent) (gpuAddr : Nat) :
    VGPUConfigL → List Effect × Option SetErr
  | [] => ([], none)
  | (key, val) :: rest =>
    match (inlineCreateLoop key gpuAddr parents val).2.2 with
    | some e => ((inlineCreateLoop key gpuAddr parents val).1, some e)
    | none =>
      if 0 < (inlineCreateLoop key gpuAddr parents val).2.1 then
        ((inlineCreateLoop key gpuAddr parents val).1, some (.capacityExceeded val key))
      else
        ((inlineCreateLoop key gpuAddr parents val).1 ++
            (creationPhase parents gpuAddr rest).1,
          (creationPhase parents gpuAddr rest).2)

/-- SetVGPUConfig (config.go:72-160): filter the parents of the target GPU,
sanitize the requested config against the representative parent, clear every
existing device of the GPU, then greedily create the sanitized entries.
Returns the error (if any) and the ordered kernel-visible effects. -/
def SetVGPUConfig (allParents : List MDEVParent) (devices : List MdevDevice)
    (gpu : Int) (gpuAddr : Nat) (config : VGPUConfigL) :
    Option SetErr × List Effect :=
  match allParents.filter (fun p => p.pfAddr == gpuAddr) with
  | [] => (some (.noParents gpu), [])
  | rep :: parents' =>
    match sanitizeConfig rep gpu gpuAddr [] config with
    | .error e => (some e, [])
    | .ok sanitized =>
      ((creationPhase (rep :: parents') gpuAddr sanitized).2,
        ClearVGPUConfig devices gpuAddr ++
          (creationPhase (rep :: parents') gpuAddr sanitized).1)

/-! ### Lemmas about characters and decimal strings -/

theorem isDigitChar_toNat {c : Char} (h : isDigitChar c = true) :
    48 ≤ c.toNat ∧ c.toNat ≤ 57 := by
  simp [isDigitChar] at h
  exact h

theorem charVal_lt_ten {c : Char} (h : isDigitChar c = true) : charVal c < 10 := by
  have := isDigitChar_toNat h
  unfold charVal
  omega

theorem ofNat_charVal {c : Char} (h : isDigitChar c = true) :
    Char.ofNat (48 + charVal c) = c := by
  have hb := isDigitChar_toNat h
  have : 48 + charVal c = c.toNat := by unfold charVal; omega
  rw [this, Char.ofNat_toNat]

theorem nonZeroDigit_isDigit {c : Char} (h : isNonZeroDigitChar c = true) :
    isDigitChar c = true := by
  simp only [isNonZeroDigitChar, isDigitChar, Bool.and_eq_true, decide_eq_true_eq] at h ⊢
  exact ⟨le_trans (by decide) h.1, h.2⟩

theorem canonNum_all_digits {l : Str} (h : canonNum l = true) :
    l.all isDigitChar = true := by
  match l with
  | [] => simp [canonNum] at h
  | [c] => simpa [canonNum] using h
  | c :: c2 :: rest =>
    have h2 : isNonZeroDigitChar c = true ∧ (c2 :: rest).all isDigitChar = true := by
      simpa [canonNum] using h
    simp only [List.all_cons, Bool.and_eq_true] at h2 ⊢
    exact ⟨nonZeroDigit_isDigit h2.1, h2.2⟩

theorem canonNum_ne_nil {l : Str} (h : canonNum l = true) : l ≠ [] := by
  intro hl
  subst hl
  simp [canonNum] at h

theorem natToDecAux_eq_digits :
    ∀ fuel n, n ≤ fuel →
      natToDecAux fuel n = ((Nat.digits 10 n).reverse).map (fun d => Char.ofNat (48 + d))
  | 0, n, h => by
    have : n = 0 := Nat.le_zero.mp h
    subst this
    simp [natToDecAux]
  | fuel + 1, n, h => by
    by_cases hn : n = 0
    · subst hn
      simp [natToDecAux]
    · have hdiv : n / 10 ≤ fuel := by
        have : n / 10 < n := Nat.div_lt_self (Nat.pos_of_ne_zero hn) (by norm_num)
        omega
      have ih := natToDecAux_eq_digits fuel (n / 10) hdiv
      rw [natToDecAux, if_neg hn, ih,
        Nat.digits_def' (by norm_num : (1:ℕ) < 10) (Nat.pos_of_ne_zero hn)]
      simp

theorem digits_digitsVal {l : Str} (hne : l ≠ []) (hd : l.all isDigitChar = true)
    (hh : charVal (l.headD '0') ≠ 0) :
    Nat.digits 10 (digitsVal l) = (l.map charVal).reverse := by
  apply Nat.digits_ofDigits 10 (by norm_num)
  · intro x hx
    simp only [List.mem_reverse, List.mem_map] at hx
    obtain ⟨c, hc, rfl⟩ := hx
    exact charVal_lt_ten (by rw [List.all_eq_true] at hd; exact hd c hc)
  · intro hne2
    rw [List.getLast_reverse]
    cases l with
    | nil => exact absurd rfl hne
    | cons c rest => simpa using hh

/-- Formatting with %d inverts the numeric value of a canonical digit
string. -/
theorem natToDec_digitsVal {l : Str} (h : canonNum l = true) :
    natToDec (digitsVal l) = l := by
  cases l with
  | nil => simp [canonNum] at h
  | cons c rest =>
    cases rest with
    | nil =>
      have hc : isDigitChar c = true := by simpa [canonNum] using h
      have hval : digitsVal [c] = charVal c := by
        simp [digitsVal, Nat.ofDigits_singleton]
      by_cases h0 : charVal c = 0
      · have : c = '0' := by
          have := ofNat_charVal hc
          rw [h0] at this
          simpa using this.symm
        subst this
        simp [natToDec, hval, h0]
      · rw [hval, natToDec, if_neg h0]
        rw [natToDecAux_eq_digits _ _ (Nat.le_refl _)]
        rw [Nat.digits_of_lt 10 (charVal c) h0 (charVal_lt_ten hc)]
        simp [ofNat_charVal hc]
    | cons c2 rest2 =>
      have hcanon : isNonZeroDigitChar c = true ∧ (c2 :: rest2).all isDigitChar = true := by
        simpa [canonNum] using h
      obtain ⟨hc1, hcrest⟩ := hcanon
      have hc1' : isDigitChar c = true := nonZeroDigit_isDigit hc1
      have hall : (c :: c2 :: rest2).all isDigitChar = true := by
        simp only [List.all_cons, Bool.and_eq_true] at hcrest ⊢
        exact ⟨hc1', hcrest⟩
      have hh : charVal ((c :: c2 :: rest2).headD '0') ≠ 0 := by
        simp only [List.headD_cons]
        have h49 : 49 ≤ c.toNat := by
          simp only [isNonZeroDigitChar, Bool.and_eq_true, decide_eq_true_eq] at hc1
          exact hc1.1
        unfold charVal
        omega
      have hdig := digits_digitsVal (l := c :: c2 :: rest2) (by simp) hall hh
      have hne0 : digitsVal (c :: c2 :: rest2) ≠ 0 := by
        intro h0
        rw [h0] at hdig
        simp [Nat.digits_zero] at hdig
      rw [natToDec, if_neg hne0]
      rw [natToDecAux_eq_digits _ _ (Nat.le_refl _), hdig]
      rw [List.reverse_reverse, List.map_map]
      have hmem : ∀ x ∈ (c :: c2 :: rest2), isDigitChar x = true := by
        rw [List.all_eq_true] at hall
        exact hall
      calc (c :: c2 :: rest2).map ((fun d => Char.ofNat (48 + d)) ∘ charVal)
          = (c :: c2 :: rest2).map id := List.map_congr_left (by
            intro x hx
            simpa using ofNat_charVal (hmem x hx))
        _ = c :: c2 :: rest2 := List.map_id _

/-- On a canonical digit string, Atoi returns its value whenever it is in
the 64-bit range. -/
theorem atoiModel_canon {l : Str} (h : canonNum l = true) :
    atoiModel l = if digitsVal l ≤ maxGoInt then some (digitsVal l : Int) else none := by
  cases l with
  | nil => simp [canonNum] at h
  | cons c ds =>
    have hall : (c :: ds).all isDigitChar = true := canonNum_all_digits h
    have hc : isDigitChar c = true := by
      simp only [List.all_cons, Bool.and_eq_true] at hall
      exact hall.1
    have hb := isDigitChar_toNat hc
    have hminus : ¬(c = '-') := by
      intro he
      subst he
      simp at hb
    have hplus : ¬(c = '+') := by
      intro he
      subst he
      simp at hb
    rw [atoiModel, if_neg hminus, if_neg hplus, hall]
    simp

theorem intToDec_ofNat (n : Nat) : intToDec (n : Int) = natToDec n := by
  unfold intToDec
  rw [if_neg (by omega)]
  simp

/-! ### Lemmas about splitDash and joinDash -/

theorem joinDash_single (p : Str) : joinDash [p] = p := rfl

theorem joinDash_cons_cons (p q : Str) (ps : List Str) :
    joinDash (p :: q :: ps) = p ++ '-' :: joinDash (q :: ps) := rfl

theorem splitDash_ne_nil (l : Str) : splitDash l ≠ [] := by
  cases l with
  | nil => simp [splitDash]
  | cons c rest =>
    unfold splitDash
    rcases h : splitDash rest with _ | ⟨p, ps⟩
    · simp
    · by_cases hc : c = '-' <;> simp [hc]

theorem joinDash_splitDash (l : Str) : joinDash (splitDash l) = l := by
  induction l with
  | nil => rfl
  | cons c rest ih =>
    unfold splitDash
    rcases h : splitDash rest with _ | ⟨p, ps⟩
    · exact absurd h (splitDash_ne_nil rest)
    · rw [h] at ih
      show joinDash (if c = '-' then [] :: p :: ps else (c :: p) :: ps) = c :: rest
      by_cases hc : c = '-'
      · subst hc
        rw [if_pos rfl, joinDash_cons_cons, ih]
        rfl
      · rw [if_neg hc]
        cases ps with
        | nil =>
          rw [joinDash_single] at ih ⊢
          rw [ih]
        | cons q qs =>
          rw [joinDash_cons_cons] at ih ⊢
          rw [List.cons_append, ih]

theorem joinDash_append_last (xs : List Str) (y : Str) (h : xs ≠ []) :
    joinDash (xs ++ [y]) = joinDash xs ++ '-' :: y := by
  induction xs with
  | nil => exact absurd rfl h
  | cons p ps ih =>
    cases ps with
    | nil => rfl
    | cons q qs =>
      have h2 := ih (by simp)
      rw [List.cons_append] at h2
      show joinDash (p :: (q :: qs ++ [y])) = joinDash (p :: q :: qs) ++ '-' :: y
      rw [List.cons_append, joinDash_cons_cons, h2, joinDash_cons_cons]
      simp

theorem mem_joinDash {c : Char} {ps : List Str} (h : c ∈ joinDash ps) :
    c = '-' ∨ ∃ p ∈ ps, c ∈ p := by
  induction ps with
  | nil => simp [joinDash] at h
  | cons p rest ih =>
    cases rest with
    | nil =>
      rw [joinDash_single] at h
      exact Or.inr ⟨p, by simp, h⟩
    | cons q qs =>
      rw [joinDash_cons_cons, List.mem_append] at h
      rcases h with h | h
      · exact Or.inr ⟨p, by simp, h⟩
      · rcases List.mem_cons.mp h with h | h
        · exact Or.inl h
        · rcases ih h with h2 | ⟨r, hr, hcr⟩
          · exact Or.inl h2
          · exact Or.inr ⟨r, by simp [hr], hcr⟩

/-! ### Inversion lemmas for the grammar -/

theorem digitsVal_singleton (c : Char) : digitsVal [c] = charVal c := by
  simp [digitsVal, Nat.ofDigits_singleton]

theorem matchTimeSliced_inv {cs : Str} {gr : TSGroups}
    (h : matchTimeSliced cs = some gr) :
    ∃ p0 mid,
      gr.gpu = joinDash (p0 :: mid) ∧
      cs = gr.gpu ++ '-' :: (gr.gb ++ [gr.s]) ∧
      canonNum gr.gb = true ∧ seriesIsValid gr.s = true ∧
      (!p0.isEmpty) = true ∧ p0.all isUpperDigitChar = true ∧
      mid.all (fun m => (!m.isEmpty) && m.all isAlphaChar) = true := by
  unfold matchTimeSliced at h
  split at h
  case h_2 => exact absurd h (by simp)
  rename_i lastp restRev hrev
  split at h
  case h_1 => exact absurd h (by simp)
  rename_i p0 mid hrr
  split at h
  case h_2 => exact absurd h (by simp)
  rename_i sc hdw
  split at h
  case isFalse => exact absurd h (by simp)
  rename_i hguard
  simp only [Bool.and_eq_true] at hguard
  obtain ⟨⟨⟨⟨hp0ne, hp0⟩, hmid⟩, hcanon⟩, hseries⟩ := hguard
  obtain rfl : gr = ⟨joinDash (p0 :: mid), lastp.takeWhile isDigitChar, sc⟩ :=
    (Option.some.inj h).symm
  refine ⟨p0, mid, rfl, ?_, hcanon, hseries, hp0ne, hp0, hmid⟩
  have hsplit : splitDash cs = (p0 :: mid) ++ [lastp] := by
    have h2 := List.reverse_eq_iff.mp hrev
    rw [h2, List.reverse_cons, hrr]
  have hcs : cs = joinDash ((p0 :: mid) ++ [lastp]) := by
    rw [← hsplit, joinDash_splitDash]
  have hlast : lastp = lastp.takeWhile isDigitChar ++ [sc] := by
    conv_lhs => rw [← List.takeWhile_append_dropWhile (p := isDigitChar) (l := lastp)]
    rw [hdw]
  show cs = joinDash (p0 :: mid) ++ '-' :: (lastp.takeWhile isDigitChar ++ [sc])
  rw [hcs, joinDash_append_last _ _ (by simp)]
  conv_lhs => rw [hlast]

theorem matchMigBacked_inv {cs : Str} {gr : MigGroups}
    (h : matchMigBacked cs = some gr) :
    cs = gr.gpu ++ '-' :: (gr.g ++ '-' :: (gr.gb ++ gr.s :: gr.attr)) ∧
    (!gr.gpu.isEmpty) = true ∧ gr.gpu.all isUpperDigitChar = true ∧
    (∃ c, gr.g = [c] ∧ isNonZeroDigitChar c = true) ∧
    canonNum gr.gb = true ∧ seriesIsValid gr.s = true ∧
    (gr.attr.isEmpty || isAttrToken gr.attr) = true := by
  unfold matchMigBacked at h
  split at h
  case h_2 => exact absurd h (by simp)
  rename_i p0 p1 p2 hsplit
  split at h
  case h_2 => exact absurd h (by simp)
  rename_i sc attr hdw
  split at h
  case isFalse => exact absurd h (by simp)
  rename_i hguard
  simp only [Bool.and_eq_true] at hguard
  obtain ⟨⟨⟨⟨⟨hp0ne, hp0⟩, hp1⟩, hcanon⟩, hseries⟩, hattr⟩ := hguard
  obtain rfl : gr = ⟨p0, p1, p2.takeWhile isDigitChar, sc, attr⟩ :=
    (Option.some.inj h).symm
  have hc : ∃ c, p1 = [c] ∧ isNonZeroDigitChar c = true := by
    cases p1 with
    | nil => simp at hp1
    | cons c rest =>
      cases rest with
      | nil => exact ⟨c, rfl, hp1⟩
      | cons d rest2 => simp at hp1
  refine ⟨?_, hp0ne, hp0, hc, hcanon, hseries, hattr⟩
  have hp2 : p2 = p2.takeWhile isDigitChar ++ (sc :: attr) := by
    conv_lhs => rw [← List.takeWhile_append_dropWhile (p := isDigitChar) (l := p2)]
    rw [hdw]
  show cs = p0 ++ '-' :: (p1 ++ '-' :: (p2.takeWhile isDigitChar ++ sc :: attr))
  have hcs : cs = joinDash [p0, p1, p2] := by
    rw [← hsplit, joinDash_splitDash]
  rw [hcs, joinDash_cons_cons, joinDash_cons_cons, joinDash_single]
  conv_lhs => rw [hp2]

theorem ParseVGPUType_ok_inv {cs : Str} {v : VGPUType}
    (h : ParseVGPUType cs = .ok v) :
    (∃ gr gb, matchTimeSliced cs = some gr ∧ atoiModel gr.gb = some gb ∧
        v = ⟨gr.gpu, 0, gb, gr.s, []⟩) ∨
    (∃ gr g gb, matchMigBacked cs = some gr ∧ atoiModel gr.gb = some gb ∧
        atoiModel gr.g = some g ∧ v = ⟨gr.gpu, g, gb, gr.s, [gr.attr]⟩) := by
  unfold ParseVGPUType at h
  split at h
  · exact absurd h (by simp)
  split at h
  · rename_i gr hts
    split at h
    case h_1 => exact absurd h (by simp)
    rename_i gb hgb
    split at h
    case isFalse => exact absurd h (by simp)
    obtain rfl : v = ⟨gr.gpu, 0, gb, gr.s, []⟩ := (Except.ok.inj h).symm
    exact Or.inl ⟨gr, gb, hts, hgb, rfl⟩
  · split at h
    case h_1 => exact absurd h (by simp)
    rename_i gr hmig
    split at h
    case h_1 => exact absurd h (by simp)
    rename_i gb hgb
    split at h
    case isFalse => exact absurd h (by simp)
    split at h
    case h_1 => exact absurd h (by simp)
    rename_i g hg
    obtain rfl : v = ⟨gr.gpu, g, gb, gr.s, [gr.attr]⟩ := (Except.ok.inj h).symm
    exact Or.inr ⟨gr, g, gb, hmig, hgb, hg, rfl⟩

theorem atoiModel_canon_value {l : Str} {n : Int} (hc : canonNum l = true)
    (h : atoiModel l = some n) : n = (digitsVal l : Int) ∧ digitsVal l ≤ maxGoInt := by
  rw [atoiModel_canon hc] at h
  by_cases hle : digitsVal l ≤ maxGoInt
  · rw [if_pos hle] at h
    exact ⟨(Option.some.inj h).symm, hle⟩
  · rw [if_neg hle] at h
    exact absurd h (by simp)

theorem intToDec_canon {l : Str} {n : Int} (hc : canonNum l = true)
    (h : atoiModel l = some n) : intToDec n = l := by
  obtain ⟨rfl, _⟩ := atoiModel_canon_value hc h
  rw [intToDec_ofNat, natToDec_digitsVal hc]

theorem atoi_nonzero_digit {c : Char} {g : Int} (hc : isNonZeroDigitChar c = true)
    (h : atoiModel [c] = some g) : 1 ≤ g := by
  have hcanon : canonNum [c] = true := by
    simpa [canonNum] using nonZeroDigit_isDigit hc
  obtain ⟨rfl, _⟩ := atoiModel_canon_value hcanon h
  have : 1 ≤ digitsVal [c] := by
    rw [digitsVal_singleton]
    simp only [isNonZeroDigitChar, Bool.and_eq_true, decide_eq_true_eq] at hc
    have : 49 ≤ c.toNat := hc.1
    unfold charVal
    omega
  exact_mod_cast this

/-- Claim C2: for every string that ParseVGPUType accepts, formatting the
resulting VGPUType with VGPUType.String yields the original string exactly:
String(ParseVGPUType(s)) == s. -/
theorem c2_parse_format_roundtrip (cs : Str) (v : VGPUType)
    (h : ParseVGPUType cs = .ok v) : v.format = cs := by
  rcases ParseVGPUType_ok_inv h with ⟨gr, gb, hts, hgb, rfl⟩ |
    ⟨gr, g, gb, hmig, hgb, hg, rfl⟩
  · obtain ⟨p0, mid, _, hcs, hcanon, _, _, _, _⟩ := matchTimeSliced_inv hts
    have hfmt : VGPUType.format ⟨gr.gpu, 0, gb, gr.s, []⟩ =
        gr.gpu ++ '-' :: intToDec gb ++ [gr.s] := by
      unfold VGPUType.format
      rw [if_pos rfl]
    rw [hfmt, intToDec_canon hcanon hgb, hcs]
    simp
  · obtain ⟨hcs, _, _, ⟨c, hgc, hcdig⟩, hcanon, _, _⟩ := matchMigBacked_inv hmig
    have hg1 : 1 ≤ g := atoi_nonzero_digit hcdig (hgc ▸ hg)
    have hcanon_g : canonNum gr.g = true := by
      rw [hgc]
      simpa [canonNum] using nonZeroDigit_isDigit hcdig
    have hfmt : VGPUType.format ⟨gr.gpu, g, gb, gr.s, [gr.attr]⟩ =
        gr.gpu ++ '-' :: intToDec g ++ '-' :: intToDec gb ++ gr.s :: gr.attr := by
      unfold VGPUType.format
      rw [if_neg (show ¬(g = 0) by omega)]
      simp
    rw [hfmt, intToDec_canon hcanon hgb, intToDec_canon hcanon_g hg, hcs]
    simp

theorem c2_parse_format_roundtrip_witness :
    VGPUType.format ⟨['A', '1', '0', '0'], 1, 5, 'C', [[]]⟩ =
      ['A', '1', '0', '0', '-', '1', '-', '5', 'C'] :=
  c2_parse_format_roundtrip ['A', '1', '0', '0', '-', '1', '-', '5', 'C']
    ⟨['A', '1', '0', '0'], 1, 5, 'C', [[]]⟩ rfl

/-! ### Character classes contain no whitespace -/

theorem char_ge_45_not_whitespace {c : Char} (h : 45 ≤ c.toNat) :
    c.isWhitespace = false := by
  by_contra h2
  rw [Bool.not_eq_false] at h2
  simp [Char.isWhitespace] at h2
  rcases h2 with ((rfl | rfl) | rfl) | rfl <;> exact absurd h (by decide)

theorem isUpperDigitChar_ge {c : Char} (h : isUpperDigitChar c = true) :
    45 ≤ c.toNat := by
  simp [isUpperDigitChar] at h
  rcases h with ⟨h1, _⟩ | ⟨h1, _⟩
  · have h2 : 65 ≤ c.toNat := h1
    omega
  · have h2 : 48 ≤ c.toNat := h1
    omega

theorem isAlphaChar_ge {c : Char} (h : isAlphaChar c = true) : 45 ≤ c.toNat := by
  simp [isAlphaChar] at h
  rcases h with ⟨h1, _⟩ | ⟨h1, _⟩
  · have h2 : 65 ≤ c.toNat := h1
    omega
  · have h2 : 97 ≤ c.toNat := h1
    omega

theorem isDigitChar_ge {c : Char} (h : isDigitChar c = true) : 45 ≤ c.toNat := by
  have := isDigitChar_toNat h
  omega

theorem seriesIsValid_ge {c : Char} (h : seriesIsValid c = true) : 45 ≤ c.toNat := by
  simp [seriesIsValid] at h
  rcases h with ((rfl | rfl) | rfl) | rfl <;> decide

theorem isAttrToken_chars_ge {a : Str} (h : isAttrToken a = true) :
    ∀ c ∈ a, 45 ≤ c.toNat := by
  simp only [isAttrToken, attributeMediaExtensions, attributeNoMediaExtensions,
    attributeMediaExtensionsAll, attributeGraphics, Bool.or_eq_true,
    decide_eq_true_eq] at h
  rcases h with ((rfl | rfl) | rfl) | rfl <;> (intro c hc; simp at hc) <;>
    rcases hc with rfl | rfl | rfl | rfl | rfl <;> decide

/-- A string ParseVGPUType accepts contains no whitespace character, in any
position: every character is in one of the regex character classes or is the
dash separator. -/
theorem parse_ok_no_whitespace {cs : Str} {v : VGPUType}
    (h : ParseVGPUType cs = .ok v) : ∀ c ∈ cs, c.isWhitespace = false := by
  intro c hc
  apply char_ge_45_not_whitespace
  rcases ParseVGPUType_ok_inv h with ⟨gr, gb, hts, _, _⟩ |
    ⟨gr, g, gb, hmig, _, _, _⟩
  · obtain ⟨p0, mid, hgpu, hcs, hcanon, hseries, _, hp0, hmid⟩ :=
      matchTimeSliced_inv hts
    rw [hcs] at hc
    rcases List.mem_append.mp hc with h1 | h1
    · rw [hgpu] at h1
      rcases mem_joinDash h1 with rfl | ⟨p, hp, hcp⟩
      · decide
      · rcases List.mem_cons.mp hp with rfl | hpm
        · exact isUpperDigitChar_ge (List.all_eq_true.mp hp0 c hcp)
        · have hm := List.all_eq_true.mp hmid p hpm
          simp only [Bool.and_eq_true] at hm
          exact isAlphaChar_ge (List.all_eq_true.mp hm.2 c hcp)
    · rcases List.mem_cons.mp h1 with rfl | h2
      · decide
      · rcases List.mem_append.mp h2 with h3 | h3
        · exact isDigitChar_ge
            (List.all_eq_true.mp (canonNum_all_digits hcanon) c h3)
        · rw [List.mem_singleton.mp h3]
          exact seriesIsValid_ge hseries
  · obtain ⟨hcs, _, hgpu, ⟨c0, hgc, hcdig⟩, hcanon, hseries, hattr⟩ :=
      matchMigBacked_inv hmig
    rw [hcs] at hc
    rcases List.mem_append.mp hc with h1 | h1
    · exact isUpperDigitChar_ge (List.all_eq_true.mp hgpu c h1)
    · rcases List.mem_cons.mp h1 with rfl | h2
      · decide
      · rcases List.mem_append.mp h2 with h3 | h3
        · rw [hgc] at h3
          rw [List.mem_singleton.mp h3]
          exact isDigitChar_ge (nonZeroDigit_isDigit hcdig)
        · rcases List.mem_cons.mp h3 with rfl | h4
          · decide
          · rcases List.mem_append.mp h4 with h5 | h5
            · exact isDigitChar_ge
                (List.all_eq_true.mp (canonNum_all_digits hcanon) c h5)
            · rcases List.mem_cons.mp h5 with rfl | h6
              · exact seriesIsValid_ge hseries
              · rcases Bool.or_eq_true_iff.mp hattr with hemp | htok
                · rw [List.isEmpty_iff.mp hemp] at h6
                  simp at h6
                · exact isAttrToken_chars_ge htok c h6

/-- Claim C8: ParseVGPUType rejects every string containing whitespace in any
position; it rejects "A16-8E" (series E not in {A,B,C,Q}), " A100-5C"
(leading whitespace) and "A100-1-5Cab" (unrecognized attribute suffix); every
accepted string has its series in {A,B,C,Q}; and "A100-1-5CME" is accepted
with G=1, GB=5, Series=C. -/
theorem c8_grammar_rejection :
    (∀ cs v, ParseVGPUType cs = .ok v → ∀ c ∈ cs, c.isWhitespace = false) ∧
    (∀ cs v, ParseVGPUType cs = .ok v → seriesIsValid v.S = true) ∧
    (ParseVGPUType ['A', '1', '6', '-', '8', 'E']).isOk = false ∧
    (ParseVGPUType [' ', 'A', '1', '0', '0', '-', '5', 'C']).isOk = false ∧
    (ParseVGPUType ['A', '1', '0', '0', '-', '1', '-', '5', 'C', 'a', 'b']).isOk = false ∧
    ParseVGPUType ['A', '1', '0', '0', '-', '1', '-', '5', 'C', 'M', 'E'] =
      .ok ⟨['A', '1', '0', '0'], 1, 5, 'C', [['M', 'E']]⟩ := by
  refine ⟨fun cs v h => parse_ok_no_whitespace h, ?_, by decide, by decide, by decide, rfl⟩
  intro cs v h
  rcases ParseVGPUType_ok_inv h with ⟨gr, gb, hts, _, rfl⟩ |
    ⟨gr, g, gb, hmig, _, _, rfl⟩
  · obtain ⟨_, _, _, _, _, hseries, _, _, _⟩ := matchTimeSliced_inv hts
    exact hseries
  · obtain ⟨_, _, _, _, _, hseries, _⟩ := matchMigBacked_inv hmig
    exact hseries

theorem c8_grammar_rejection_witness :
    Char.isWhitespace 'A' = false ∧ seriesIsValid 'C' = true :=
  ⟨c8_grammar_rejection.1 ['A', '1', '0', '0', '-', '4', '0', 'C']
      ⟨['A', '1', '0', '0'], 0, 40, 'C', []⟩ rfl 'A' (by decide),
    c8_grammar_rejection.2.1 ['A', '1', '0', '0', '-', '4', '0', 'C']
      ⟨['A', '1', '0', '0'], 0, 40, 'C', []⟩ rfl⟩

/-- Claim C5 is refuted at the input "A100-1-5C": the parser stores the
empty submatch of the optional attribute group, so Attr is the one-element
list [""] — not an empty list, and its element is not one of ME, NOME,
MEALL, GFX. -/
theorem c5_attr_counterexample :
    ParseVGPUType ['A', '1', '0', '0', '-', '1', '-', '5', 'C'] =
      .ok ⟨['A', '1', '0', '0'], 1, 5, 'C', [[]]⟩ ∧
    ([[]] : List Str).length = 1 ∧ isAttrToken [] = false :=
  ⟨rfl, rfl, rfl⟩

/-- Claim C5 (amended): for every accepted string, a time-sliced result has
an empty Attr list, and a MIG-backed result has an Attr list of exactly one
element, which is either a recognized attribute token (ME, NOME, MEALL, GFX)
or the empty string when the name carries no attribute suffix. -/
theorem c5_attr_amended (cs : Str) (v : VGPUType)
    (h : ParseVGPUType cs = .ok v) :
    (v.G = 0 → v.Attr = []) ∧
    (v.G ≠ 0 → ∃ a, v.Attr = [a] ∧ (a = [] ∨ isAttrToken a = true)) := by
  rcases ParseVGPUType_ok_inv h with ⟨gr, gb, hts, _, rfl⟩ |
    ⟨gr, g, gb, hmig, _, hg, rfl⟩
  · exact ⟨fun _ => rfl, fun hne => absurd rfl hne⟩
  · obtain ⟨_, _, _, ⟨c, hgc, hcdig⟩, _, _, hattr⟩ := matchMigBacked_inv hmig
    have hg1 : 1 ≤ g := atoi_nonzero_digit hcdig (hgc ▸ hg)
    constructor
    · intro h0
      have : g = 0 := h0
      omega
    · intro _
      refine ⟨gr.attr, rfl, ?_⟩
      rcases Bool.or_eq_true_iff.mp hattr with hemp | htok
      · exact Or.inl (List.isEmpty_iff.mp hemp)
      · exact Or.inr htok

theorem c5_attr_amended_witness :
    ((1 : Int) = 0 → ([['M', 'E']] : List Str) = []) ∧
    ((1 : Int) ≠ 0 → ∃ a, ([['M', 'E']] : List Str) = [a] ∧
      (a = [] ∨ isAttrToken a = true)) :=
  c5_attr_amended ['A', '1', '0', '0', '-', '1', '-', '5', 'C', 'M', 'E']
    ⟨['A', '1', '0', '0'], 1, 5, 'C', [['M', 'E']]⟩ rfl

/-! ### Claims about the backends -/

/-- Claim C10: the VFIO backend's CreateVGPUDevice ignores its second
(id-hint) argument entirely: for any fixed parent and type name, any two id
hints resolve the same numeric id from the receiver's creatable_vgpu_types
listing, target the same current_vgpu_type file of the receiver's virtual
function, and return the same result. -/
theorem c10_vfio_create_id_hint_irrelevant (p : VfioParent) (t : Str)
    (vfnum1 vfnum2 : Str) :
    vfioCreateVGPUDevice p t vfnum1 = vfioCreateVGPUDevice p t vfnum2 := rfl

theorem trimSuffix_append {t suf : Str} (h : hasSuffix t suf = true) :
    trimSuffix t suf ++ suf = t := by
  unfold trimSuffix
  rw [if_pos h]
  unfold hasSuffix at h
  obtain ⟨pre, rfl⟩ := List.isSuffixOf_iff_suffix.mp h
  have hlen : (pre ++ suf).length - suf.length = pre.length := by simp
  rw [hlen, List.take_left]

/-- Claim C7: stripVGPUConfigSuffix strips exactly one, outermost, attribute
suffix, probing MEALL before NOME before ME before GFX: "A100-7-40CMEALL"
becomes "A100-7-40C" (not "A100-7-40CALL"), "A100-1-5CNOMEME" becomes
"A100-1-5CNOME", a string ending in none of the four suffixes is returned
unchanged, and every result is obtained by removing at most one suffix. -/
theorem c7_strip_suffix :
    stripVGPUConfigSuffix
        ['A', '1', '0', '0', '-', '7', '-', '4', '0', 'C', 'M', 'E', 'A', 'L', 'L'] =
      ['A', '1', '0', '0', '-', '7', '-', '4', '0', 'C'] ∧
    stripVGPUConfigSuffix
        ['A', '1', '0', '0', '-', '1', '-', '5', 'C', 'N', 'O', 'M', 'E', 'M', 'E'] =
      ['A', '1', '0', '0', '-', '1', '-', '5', 'C', 'N', 'O', 'M', 'E'] ∧
    (∀ t : Str, hasSuffix t attributeMediaExtensionsAll = false →
        hasSuffix t attributeNoMediaExtensions = false →
        hasSuffix t attributeMediaExtensions = false →
        hasSuffix t attributeGraphics = false →
        stripVGPUConfigSuffix t = t) ∧
    (∀ t : Str, stripVGPUConfigSuffix t = t ∨
        ∃ suf ∈ suffixProbeList, t = stripVGPUConfigSuffix t ++ suf) := by
  refine ⟨rfl, rfl, ?_, ?_⟩
  · intro t h1 h2 h3 h4
    simp [stripVGPUConfigSuffix, suffixProbeList, List.find?, h1, h2, h3, h4]
  · intro t
    unfold stripVGPUConfigSuffix
    rcases hf : suffixProbeList.find? (fun suf => hasSuffix t suf) with _ | suf
    · exact Or.inl rfl
    · refine Or.inr ⟨suf, List.mem_of_find?_eq_some hf, ?_⟩
      have hsuf : hasSuffix t suf = true := by
        have := List.find?_some hf
        simpa using this
      exact (trimSuffix_append hsuf).symm

theorem c7_strip_suffix_witness :
    stripVGPUConfigSuffix ['A', '1', '0', '0', '-', '4', 'C'] =
      ['A', '1', '0', '0', '-', '4', 'C'] :=
  c7_strip_suffix.2.2.1 ['A', '1', '0', '0', '-', '4', 'C']
    (by decide) (by decide) (by decide) (by decide)

/-- Whether an available_instances file holds a non-negative parsable count
(what the kernel always reports for a supported type). -/
def availFileOk : AvailFile → Bool
  | .val n => decide (0 ≤ n)
  | .bad => false

theorem lookupType_mem {ps : List (Str × AvailFile)} {t : Str} {f : AvailFile}
    (h : lookupType ps t = some f) : ∃ k, (k, f) ∈ ps := by
  unfold lookupType at h
  rcases hf : ps.find? (fun p => p.1 == t) with _ | e
  · rw [hf] at h
    exact absurd h (by simp)
  · rw [hf] at h
    obtain rfl : e.2 = f := Option.some.inj h
    exact ⟨e.1, by simpa using List.mem_of_find?_eq_some hf⟩

/-- Claim C6 is refuted in the VFIO backend: a parent device whose creatable
listing does not mention the queried type (here: an empty listing) does not
support that type, yet GetAvailableVGPUInstances returns 0 with no error — a
non-negative count — so unsupported types do not yield a negative sentinel
there. -/
theorem c6_negative_sentinel_counterexample :
    vfioIsVGPUTypeAvailable ⟨7, [], []⟩ ['T', '4', '-', '1', 'Q'] = false ∧
    vfioGetAvailableVGPUInstances ⟨7, [], []⟩ ['T', '4', '-', '1', 'Q'] = (0, false) ∧
    ¬((0 : Int) < 0) := ⟨rfl, rfl, by decide⟩

/-- Claim C6 (amended): in the mdev backend an error-free negative count is
returned exactly when the type is unsupported on the parent, and a supported
type whose kernel file holds a (non-negative) count yields that non-negative
count; the VFIO backend instead never returns a negative count — it returns
1 when the type is currently creatable and 0 otherwise, conflating
"unsupported" with "zero capacity". -/
theorem c6_negative_sentinel_amended (p : MDEVParent) (q : VfioParent) (t : Str)
    (hfiles : p.mdevPaths.all (fun e => availFileOk e.2) = true) :
    ((GetAvailableVGPUInstances p t).2 = false ∧
      ((GetAvailableVGPUInstances p t).1 < 0 ↔ IsMDEVTypeSupported p t = false)) ∧
    vfioGetAvailableVGPUInstances q t =
      ((if vfioIsVGPUTypeAvailable q t then 1 else 0 : Int), false) ∧
    0 ≤ (vfioGetAvailableVGPUInstances q t).1 := by
  refine ⟨?_, ?_, ?_⟩
  · unfold GetAvailableVGPUInstances IsMDEVTypeSupported
    rcases hl : lookupType p.mdevPaths t with _ | f
    · simp
    · obtain ⟨k, hk⟩ := lookupType_mem hl
      have hok := List.all_eq_true.mp hfiles (k, f) hk
      cases f with
      | bad => simp [availFileOk] at hok
      | val n =>
        simp only [availFileOk, decide_eq_true_eq] at hok
        constructor
        · rfl
        · simp only [Option.isSome_some]
          constructor
          · intro hneg
            omega
          · intro habs
            exact absurd habs (by simp)
  · unfold vfioGetAvailableVGPUInstances
    by_cases ha : vfioIsVGPUTypeAvailable q t = true
    · rw [if_pos ha, if_pos ha]
    · rw [if_neg ha, if_neg ha]
  · unfold vfioGetAvailableVGPUInstances
    by_cases ha : vfioIsVGPUTypeAvailable q t = true
    · rw [if_pos ha]
      decide
    · rw [if_neg ha]

theorem c6_negative_sentinel_amended_witness :
    ((GetAvailableVGPUInstances ⟨1, 7, [(['T', '4', '-', '1', 'Q'], .val 0)]⟩
        ['A', '1', '0', '0', '-', '4', 'C']).2 = false ∧
      ((GetAvailableVGPUInstances ⟨1, 7, [(['T', '4', '-', '1', 'Q'], .val 0)]⟩
          ['A', '1', '0', '0', '-', '4', 'C']).1 < 0 ↔
        IsMDEVTypeSupported ⟨1, 7, [(['T', '4', '-', '1', 'Q'], .val 0)]⟩
          ['A', '1', '0', '0', '-', '4', 'C'] = false)) ∧
    vfioGetAvailableVGPUInstances ⟨7, [], []⟩ ['A', '1', '0', '0', '-', '4', 'C'] =
      ((if vfioIsVGPUTypeAvailable ⟨7, [], []⟩ ['A', '1', '0', '0', '-', '4', 'C']
          then 1 else 0 : Int), false) ∧
    0 ≤ (vfioGetAvailableVGPUInstances ⟨7, [], []⟩
        ['A', '1', '0', '0', '-', '4', 'C']).1 :=
  c6_negative_sentinel_amended ⟨1, 7, [(['T', '4', '-', '1', 'Q'], .val 0)]⟩
    ⟨7, [], []⟩ ['A', '1', '0', '0', '-', '4', 'C'] (by decide)

/-! ### Claim C3: mixed-mode rejection is order independent -/

theorem parsesOk_iff {k : Str} : parsesOk k = true ↔ ∃ t, ParseVGPUType k = .ok t := by
  unfold parsesOk
  rcases h : ParseVGPUType k with e | t
  · simp
  · simp

theorem parse_G_nonneg {cs : Str} {v : VGPUType} (h : ParseVGPUType cs = .ok v) :
    0 ≤ v.G := by
  rcases ParseVGPUType_ok_inv h with ⟨gr, gb, _, _, rfl⟩ |
    ⟨gr, g, gb, hmig, _, hg, rfl⟩
  · exact Int.le_refl 0
  · obtain ⟨_, _, _, ⟨c, hgc, hcdig⟩, _, _, _⟩ := matchMigBacked_inv hmig
    have := atoi_nonzero_digit hcdig (hgc ▸ hg)
    show (0 : Int) ≤ g
    omega

theorem isMigKey_parse {k : Str} {t : VGPUType} (h : ParseVGPUType k = .ok t) :
    isMigKey k = decide (0 < t.G) := by
  unfold isMigKey
  rw [h]

theorem isTimeSlicedKey_parse {k : Str} {t : VGPUType} (h : ParseVGPUType k = .ok t) :
    isTimeSlicedKey k = decide (t.G = 0) := by
  unfold isTimeSlicedKey
  rw [h]

theorem assertLoop_char :
    ∀ (l : VGPUConfigL) (idx : Nat) (mb : Bool),
    (∀ e ∈ l, parsesOk e.1 = true ∧ 0 < e.2) →
    assertLoop l (idx + 1) mb =
      if mb then
        (if l.any (fun e => isTimeSlicedKey e.1) then Except.error AVErr.mixed
          else Except.ok ())
      else
        (if l.any (fun e => isMigKey e.1) then Except.error AVErr.mixed
          else Except.ok ())
  | [], idx, mb, _ => by cases mb <;> simp [assertLoop]
  | (k, c) :: rest, idx, mb, hok => by
    obtain ⟨hkp, hkc⟩ := hok (k, c) (by simp)
    obtain ⟨t, ht⟩ := parsesOk_iff.mp hkp
    have hrest : ∀ e ∈ rest, parsesOk e.1 = true ∧ 0 < e.2 := by
      intro e he
      exact hok e (by simp [he])
    have hstep : assertLoop ((k, c) :: rest) (idx + 1) mb =
        (if c ≤ 0 then Except.error (AVErr.invalidCount c)
          else if 0 < t.G then
            (if (decide (0 < idx + 1) && !mb) = true then Except.error AVErr.mixed
              else assertLoop rest (idx + 1 + 1) true)
          else
            (if (decide (0 < idx + 1) && mb) = true then Except.error AVErr.mixed
              else assertLoop rest (idx + 1 + 1) mb)) := by
      rw [assertLoop, ht]
    rw [hstep, if_neg (by omega : ¬(c ≤ 0))]
    have hG := parse_G_nonneg ht
    by_cases hmig : 0 < t.G
    · rw [if_pos hmig]
      have hmigkey : isMigKey k = true := by rw [isMigKey_parse ht]; simpa using hmig
      have htskey : isTimeSlicedKey k = false := by
        rw [isTimeSlicedKey_parse ht]
        simpa using (by omega : ¬(t.G = 0))
      cases mb with
      | false =>
        rw [if_pos (by simp)]
        rw [if_pos (show (((k, c) :: rest).any fun e => isMigKey e.1) = true from by
          simp [hmigkey])]
        simp
      | true =>
        rw [if_neg (by simp)]
        rw [assertLoop_char rest (idx + 1) true hrest]
        rw [show (((k, c) :: rest).any fun e => isTimeSlicedKey e.1) =
            (rest.any fun e => isTimeSlicedKey e.1) from by simp [htskey]]
        simp
    · rw [if_neg hmig]
      have hG0 : t.G = 0 := by omega
      have hmigkey : isMigKey k = false := by
        rw [isMigKey_parse ht]
        simpa using hmig
      have htskey : isTimeSlicedKey k = true := by
        rw [isTimeSlicedKey_parse ht]
        simpa using hG0
      cases mb with
      | true =>
        rw [if_pos (by simp)]
        rw [if_pos (show (((k, c) :: rest).any fun e => isTimeSlicedKey e.1) = true from by
          simp [htskey])]
        simp
      | false =>
        rw [if_neg (by simp)]
        rw [assertLoop_char rest (idx + 1) false hrest]
        rw [show (((k, c) :: rest).any fun e => isMigKey e.1) =
            (rest.any fun e => isMigKey e.1) from by simp [hmigkey]]
        simp

theorem perm_any {α : Type} {l1 l2 : List α} (p : α → Bool) (h : l1.Perm l2) :
    l1.any p = l2.any p := by
  cases hb : l2.any p
  · rw [List.any_eq_false] at hb ⊢
    intro x hx
    exact hb x (h.mem_iff.mp hx)
  · rw [List.any_eq_true] at hb ⊢
    obtain ⟨x, hx, hpx⟩ := hb
    exact ⟨x, h.mem_iff.mpr hx, hpx⟩

theorem AssertValid_char (l : VGPUConfigL)
    (hok : ∀ e ∈ l, parsesOk e.1 = true ∧ 0 < e.2) :
    AssertValid l =
      if l.any (fun e => isMigKey e.1) && l.any (fun e => isTimeSlicedKey e.1) then
        Except.error AVErr.mixed
      else Except.ok () := by
  cases l with
  | nil => simp [AssertValid]
  | cons e rest =>
    obtain ⟨hkp, hkc⟩ := hok e (by simp)
    obtain ⟨t, ht⟩ := parsesOk_iff.mp hkp
    obtain ⟨k, c⟩ := e
    have hrest : ∀ x ∈ rest, parsesOk x.1 = true ∧ 0 < x.2 := fun x hx =>
      hok x (by simp [hx])
    have hG := parse_G_nonneg ht
    have hpos : ((k, c) :: rest).any (fun x => decide (0 < x.2)) = true := by
      simp only [List.any_cons, Bool.or_eq_true, decide_eq_true_eq]
      exact Or.inl hkc
    by_cases hmig : 0 < t.G
    · have hmigkey : isMigKey k = true := by rw [isMigKey_parse ht]; simpa using hmig
      have htskey : isTimeSlicedKey k = false := by
        rw [isTimeSlicedKey_parse ht]
        simpa using (by omega : ¬(t.G = 0))
      have hstep : assertLoop ((k, c) :: rest) 0 false =
          (if c ≤ 0 then Except.error (AVErr.invalidCount c)
            else if 0 < t.G then
              (if (decide (0 < 0) && !false) = true then Except.error AVErr.mixed
                else assertLoop rest (0 + 1) true)
            else
              (if (decide (0 < 0) && false) = true then Except.error AVErr.mixed
                else assertLoop rest (0 + 1) false)) := by
        rw [assertLoop, ht]
      have hloop : assertLoop ((k, c) :: rest) 0 false =
          (if rest.any (fun e => isTimeSlicedKey e.1) then Except.error AVErr.mixed
            else Except.ok ()) := by
        rw [hstep]
        rw [if_neg (by omega : ¬(c ≤ 0)), if_pos hmig, if_neg (by simp)]
        exact assertLoop_char rest 0 true hrest
      unfold AssertValid
      rw [if_neg (by simp), hloop]
      by_cases hts : rest.any (fun e => isTimeSlicedKey e.1) = true
      · rw [if_pos hts]
        simp [List.any_cons, hmigkey, htskey, hts]
      · rw [if_neg hts]
        rw [Bool.not_eq_true] at hts
        have hkc2 : 0 < c := hkc
        simp [List.any_cons, hmigkey, htskey, hts, hkc2]
    · have hG0 : t.G = 0 := by omega
      have hmigkey : isMigKey k = false := by
        rw [isMigKey_parse ht]
        simpa using hmig
      have htskey : isTimeSlicedKey k = true := by
        rw [isTimeSlicedKey_parse ht]
        simpa using hG0
      have hstep : assertLoop ((k, c) :: rest) 0 false =
          (if c ≤ 0 then Except.error (AVErr.invalidCount c)
            else if 0 < t.G then
              (if (decide (0 < 0) && !false) = true then Except.error AVErr.mixed
                else assertLoop rest (0 + 1) true)
            else
              (if (decide (0 < 0) && false) = true then Except.error AVErr.mixed
                else assertLoop rest (0 + 1) false)) := by
        rw [assertLoop, ht]
      have hloop : assertLoop ((k, c) :: rest) 0 false =
          (if rest.any (fun e => isMigKey e.1) then Except.error AVErr.mixed
            else Except.ok ()) := by
        rw [hstep]
        rw [if_neg (by omega : ¬(c ≤ 0)), if_neg hmig, if_neg (by simp)]
        exact assertLoop_char rest 0 false hrest
      unfold AssertValid
      rw [if_neg (by simp), hloop]
      by_cases hm : rest.any (fun e => isMigKey e.1) = true
      · rw [if_pos hm]
        simp [List.any_cons, hmigkey, htskey, hm]
      · rw [if_neg hm]
        rw [Bool.not_eq_true] at hm
        have hkc2 : 0 < c := hkc
        simp [List.any_cons, hmigkey, htskey, hm, hkc2]

/-- Claim C3: for a config whose keys all parse and whose counts are all
positive, AssertValid fails with the cannot-mix error exactly when the
entries contain both a MIG-backed (G > 0) and a time-sliced (G = 0) type,
and the outcome is the same for every iteration order of the map; a config
whose entries are all MIG-backed or all time-sliced is never rejected for
mixing. -/
theorem c3_mixed_rejection_order_independent (l : VGPUConfigL)
    (hok : ∀ e ∈ l, parsesOk e.1 = true ∧ 0 < e.2) :
    (AssertValid l = .error .mixed ↔
      (l.any (fun e => isMigKey e.1) = true ∧
        l.any (fun e => isTimeSlicedKey e.1) = true)) ∧
    (¬(l.any (fun e => isMigKey e.1) = true ∧
        l.any (fun e => isTimeSlicedKey e.1) = true) → AssertValid l = .ok ()) ∧
    (∀ l2, l.Perm l2 → AssertValid l2 = AssertValid l) := by
  have hchar := AssertValid_char l hok
  refine ⟨?_, ?_, ?_⟩
  · rw [hchar]
    by_cases hb : (l.any (fun e => isMigKey e.1) &&
        l.any (fun e => isTimeSlicedKey e.1)) = true
    · rw [if_pos hb]
      simp only [Bool.and_eq_true] at hb
      simpa using hb
    · rw [if_neg hb]
      simp only [Bool.and_eq_true] at hb
      constructor
      · intro habs
        exact absurd habs (by simp)
      · intro habs
        exact absurd habs hb
  · intro hnot
    rw [hchar, if_neg (by simpa [Bool.and_eq_true] using hnot)]
  · intro l2 hperm
    have hok2 : ∀ e ∈ l2, parsesOk e.1 = true ∧ 0 < e.2 := fun e he =>
      hok e (hperm.mem_iff.mpr he)
    rw [AssertValid_char l2 hok2, hchar]
    rw [perm_any (fun e => isMigKey e.1) hperm, perm_any (fun e => isTimeSlicedKey e.1) hperm]

theorem c3_mixed_rejection_order_independent_witness :
    AssertValid [(['A', '1', '0', '0', '-', '4', '0', 'C'], 1),
      (['A', '1', '0', '0', '-', '1', '-', '5', 'C'], 1)] = .error .mixed ∧
    AssertValid [(['A', '1', '0', '0', '-', '1', '-', '5', 'C'], 1),
      (['A', '1', '0', '0', '-', '4', '0', 'C'], 1)] = .error .mixed := by
  have h := c3_mixed_rejection_order_independent
    [(['A', '1', '0', '0', '-', '4', '0', 'C'], 1),
      (['A', '1', '0', '0', '-', '1', '-', '5', 'C'], 1)] (by decide)
  constructor
  · exact h.1.mpr (by decide)
  · rw [h.2.2 [(['A', '1', '0', '0', '-', '1', '-', '5', 'C'], 1),
      (['A', '1', '0', '0', '-', '4', '0', 'C'], 1)] (List.Perm.swap _ _ _)]
    exact h.1.mpr (by decide)

/-! ### Claim C1: the creation phase is the claimed greedy allocation -/

/-- The allocation discipline exactly as claim C1 words it: visit the
parents' availability reports in enumeration order, stop once remaining
reaches 0, skip a parent reporting ≤ 0, create min(remaining, available) on
each other parent and decrement remaining by that amount.  Returns the
per-visited-parent creation counts and the final remaining count. -/
def claimGreedy : List Int → Nat → List Nat × Nat
  | [], r => ([], r)
  | a :: rest, r =>
    if r = 0 then ([], 0)
    else if a ≤ 0 then (0 :: (claimGreedy rest r).1, (claimGreedy rest r).2)
    else
      (min r a.toNat :: (claimGreedy rest (r - min r a.toNat)).1,
        (claimGreedy rest (r - min r a.toNat)).2)

theorem createLoop_spec (t : Str) :
    ∀ (parents : List MDEVParent) (r : Int), 0 ≤ r →
    (∀ p ∈ parents, (GetAvailableVGPUInstances p t).2 = false) →
    (createLoop t parents r).1.map (fun e => e.2) =
        (claimGreedy (parents.map (fun p => (GetAvailableVGPUInstances p t).1)) r.toNat).1 ∧
    (createLoop t parents r).1.map (fun e => e.1) =
        (parents.map (fun p => p.addr)).take (createLoop t parents r).1.length ∧
    (createLoop t parents r).2.1 =
        ((claimGreedy (parents.map (fun p => (GetAvailableVGPUInstances p t).1)) r.toNat).2 : Int) ∧
    (createLoop t parents r).2.2 = none
  | [], r, hr, _ => by
    refine ⟨rfl, rfl, ?_, rfl⟩
    show r = ((r.toNat : Nat) : Int)
    omega
  | p :: rest, r, hr, hok => by
    have hpok : (GetAvailableVGPUInstances p t).2 = false := hok p (by simp)
    have hrok : ∀ q ∈ rest, (GetAvailableVGPUInstances q t).2 = false := fun q hq =>
      hok q (by simp [hq])
    rw [List.map_cons, createLoop, claimGreedy]
    by_cases hr0 : r = 0
    · subst hr0
      rw [if_pos (show (0 : Int) = 0 from rfl),
        if_pos (show Int.toNat 0 = 0 from rfl)]
      exact ⟨rfl, rfl, rfl, rfl⟩
    · rw [if_neg hr0, if_neg (by omega : ¬(r.toNat = 0)), hpok]
      rw [if_neg (by simp)]
      by_cases ha : (GetAvailableVGPUInstances p t).1 ≤ 0
      · rw [if_pos ha, if_pos ha]
        obtain ⟨ih1, ih2, ih3, ih4⟩ := createLoop_spec t rest r hr hrok
        refine ⟨?_, ?_, ih3, ih4⟩
        · rw [List.map_cons, ih1]
        · rw [List.map_cons, List.length_cons, List.map_cons, List.take_succ_cons, ih2]
      · rw [if_neg ha, if_neg ha]
        have hmin : min r (GetAvailableVGPUInstances p t).1 =
            ((min r.toNat (GetAvailableVGPUInstances p t).1.toNat : Nat) : Int) := by
          omega
        have hsub : (r - min r (GetAvailableVGPUInstances p t).1).toNat =
            r.toNat - min r.toNat (GetAvailableVGPUInstances p t).1.toNat := by
          omega
        have hr2 : 0 ≤ r - min r (GetAvailableVGPUInstances p t).1 := by omega
        obtain ⟨ih1, ih2, ih3, ih4⟩ :=
          createLoop_spec t rest (r - min r (GetAvailableVGPUInstances p t).1) hr2 hrok
        rw [hsub] at ih1 ih3
        refine ⟨?_, ?_, by rw [ih3], ih4⟩
        · rw [List.map_cons, ih1]
          have : (min r (GetAvailableVGPUInstances p t).1).toNat =
              min r.toNat (GetAvailableVGPUInstances p t).1.toNat := by omega
          rw [this]
        · rw [List.map_cons, List.length_cons, List.map_cons, List.take_succ_cons, ih2]

theorem CreateVGPUDevices_eq (allParents : List MDEVParent) (addr : Nat) (t : Str)
    (count : Int)
    (hne : ¬(allParents.filter (fun p => p.pfAddr == addr)).isEmpty = true)
    (h4 : (createLoop t (allParents.filter (fun p => p.pfAddr == addr)) count).2.2 = none) :
    CreateVGPUDevices allParents addr t count =
      ((createLoop t (allParents.filter (fun p => p.pfAddr == addr)) count).1,
        if 0 < (createLoop t (allParents.filter (fun p => p.pfAddr == addr)) count).2.1 then
          some (.capacityExceeded count t)
        else none) := by
  unfold CreateVGPUDevices
  rw [if_neg hne, h4]

/-- Claim C1: for a target GPU with at least one parent device, a type and a
requested count > 0 whose availability reads all succeed, the creation phase
(CreateVGPUDevices, mdev.go:404) visits the GPU's parent devices in
enumeration order and produces exactly the per-parent creation counts of the
claimed greedy discipline (skip parents reporting ≤ 0, create
min(remaining, available), decrement); it succeeds iff the greedy remaining
reaches 0, and any error it returns is the capacity error naming the
requested count and the type.  On 2 parents each reporting 8 available,
requesting 10 creates 8 on the first and 2 on the second and succeeds;
requesting 20 creates 8 and 8 and fails with that error. -/
theorem c1_creation_phase_greedy
    (allParents : List MDEVParent) (addr : Nat) (t : Str) (count : Int)
    (hpos : 0 < count)
    (hne : ¬(allParents.filter (fun p => p.pfAddr == addr)).isEmpty = true)
    (hok : ∀ p ∈ allParents.filter (fun p => p.pfAddr == addr),
        (GetAvailableVGPUInstances p t).2 = false) :
    ((CreateVGPUDevices allParents addr t count).1.map (fun e => e.2) =
        (claimGreedy ((allParents.filter (fun p => p.pfAddr == addr)).map
          (fun p => (GetAvailableVGPUInstances p t).1)) count.toNat).1 ∧
      (CreateVGPUDevices allParents addr t count).1.map (fun e => e.1) =
        ((allParents.filter (fun p => p.pfAddr == addr)).map (fun p => p.addr)).take
          (CreateVGPUDevices allParents addr t count).1.length ∧
      ((CreateVGPUDevices allParents addr t count).2 = none ↔
        (claimGreedy ((allParents.filter (fun p => p.pfAddr == addr)).map
          (fun p => (GetAvailableVGPUInstances p t).1)) count.toNat).2 = 0) ∧
      (∀ e, (CreateVGPUDevices allParents addr t count).2 = some e →
        e = .capacityExceeded count t)) ∧
    CreateVGPUDevices [⟨1, 7, [(['T', '4', '-', '1', 'Q'], .val 8)]⟩,
        ⟨2, 7, [(['T', '4', '-', '1', 'Q'], .val 8)]⟩] 7 ['T', '4', '-', '1', 'Q'] 10 =
      ([(1, 8), (2, 2)], none) ∧
    CreateVGPUDevices [⟨1, 7, [(['T', '4', '-', '1', 'Q'], .val 8)]⟩,
        ⟨2, 7, [(['T', '4', '-', '1', 'Q'], .val 8)]⟩] 7 ['T', '4', '-', '1', 'Q'] 20 =
      ([(1, 8), (2, 8)], some (.capacityExceeded 20 ['T', '4', '-', '1', 'Q'])) := by
  refine ⟨?_, rfl, rfl⟩
  obtain ⟨h1, h2, h3, h4⟩ := createLoop_spec t
    (allParents.filter (fun p => p.pfAddr == addr)) count (by omega) hok
  rw [CreateVGPUDevices_eq allParents addr t count hne h4]
  refine ⟨h1, h2, ?_, ?_⟩
  · by_cases hr : 0 < (createLoop t (allParents.filter (fun p => p.pfAddr == addr)) count).2.1
    · rw [if_pos hr]
      constructor
      · intro habs
        exact absurd habs (by simp)
      · intro hz
        rw [hz] at h3
        omega
    · rw [if_neg hr]
      constructor
      · intro _
        have := h3
        omega
      · intro _
        rfl
  · intro e he
    by_cases hr : 0 < (createLoop t (allParents.filter (fun p => p.pfAddr == addr)) count).2.1
    · rw [if_pos hr] at he
      simp only at he
      exact (Option.some.inj he).symm
    · rw [if_neg hr] at he
      exact absurd he (by simp)

theorem c1_creation_phase_greedy_witness :
    CreateVGPUDevices [⟨1, 7, [(['T', '4', '-', '1', 'Q'], .val 8)]⟩,
        ⟨2, 7, [(['T', '4', '-', '1', 'Q'], .val 8)]⟩] 7 ['T', '4', '-', '1', 'Q'] 10 =
      ([(1, 8), (2, 2)], none) :=
  (c1_creation_phase_greedy [⟨1, 7, [(['T', '4', '-', '1', 'Q'], .val 8)]⟩,
      ⟨2, 7, [(['T', '4', '-', '1', 'Q'], .val 8)]⟩] 7 ['T', '4', '-', '1', 'Q'] 10
    (by decide) (by decide) (by decide)).2.1

/-! ### Claims C4 and C9: the error path before Clearing, and the Clearing
frame -/

/-- A requested key the representative parent supports under neither its
exact nor its stripped form. -/
def badKey (rep : MDEVParent) (k : Str) : Bool :=
  !(IsMDEVTypeSupported rep k) && !(IsMDEVTypeSupported rep (stripVGPUConfigSuffix k))

theorem sanitize_fails (rep : MDEVParent) (gpu : Int) (gpuAddr : Nat) :
    ∀ (config acc : VGPUConfigL),
    (∃ e ∈ config, badKey rep e.1 = true) →
    ∃ k, (∃ v, (k, v) ∈ config) ∧ badKey rep k = true ∧
      sanitizeConfig rep gpu gpuAddr acc config =
        .error (.unsupportedType gpu gpuAddr k)
  | [], acc, h => by
    obtain ⟨e, he, _⟩ := h
    exact absurd he (by simp)
  | (key, val) :: rest, acc, h => by
    by_cases hk : badKey rep key = true
    · simp only [badKey, Bool.and_eq_true, Bool.not_eq_true'] at hk
      refine ⟨key, ⟨val, by simp⟩, ?_, ?_⟩
      · simp [badKey, hk.1, hk.2]
      · rw [sanitizeConfig, if_neg (by simp [hk.1]), if_neg (by simp [hk.2])]
    · have hrest : ∃ e ∈ rest, badKey rep e.1 = true := by
        obtain ⟨e, he, hbad⟩ := h
        rcases List.mem_cons.mp he with rfl | hm
        · exact absurd hbad hk
        · exact ⟨e, hm, hbad⟩
      rw [sanitizeConfig]
      by_cases hsup : IsMDEVTypeSupported rep key = true
      · rw [if_pos hsup]
        obtain ⟨k, hkm, hbad, heq⟩ :=
          sanitize_fails rep gpu gpuAddr rest (upsert acc key val) hrest
        exact ⟨k, ⟨hkm.choose, by simp [hkm.choose_spec]⟩, hbad, heq⟩
      · rw [if_neg hsup]
        have hsup2 : IsMDEVTypeSupported rep (stripVGPUConfigSuffix key) = true := by
          by_contra h2
          rw [Bool.not_eq_true] at h2
          have h1 : IsMDEVTypeSupported rep key = false := by
            rcases Bool.eq_false_or_eq_true (IsMDEVTypeSupported rep key) with h | h
            · exact absurd h hsup
            · exact h
          exact hk (by simp [badKey, h1, h2])
        rw [if_pos hsup2]
        obtain ⟨k, hkm, hbad, heq⟩ := sanitize_fails rep gpu gpuAddr rest
          (upsert acc (stripVGPUConfigSuffix key) val) hrest
        exact ⟨k, ⟨hkm.choose, by simp [hkm.choose_spec]⟩, hbad, heq⟩

/-- Claim C4: when some requested type is supported on the representative
parent neither under its exact name nor under its suffix-stripped name,
SetVGPUConfig fails with the unsupported-type error naming the GPU and that
type, and its effect trace is empty: nothing is deleted and nothing is
created, because sanitization completes before Clearing begins. -/
theorem c4_unsupported_type_no_effects
    (allParents : List MDEVParent) (devices : List MdevDevice) (gpu : Int)
    (gpuAddr : Nat) (config : VGPUConfigL) (rep : MDEVParent)
    (parents' : List MDEVParent)
    (hfil : allParents.filter (fun p => p.pfAddr == gpuAddr) = rep :: parents')
    (hbad : ∃ e ∈ config, badKey rep e.1 = true) :
    ∃ k, (∃ v, (k, v) ∈ config) ∧ badKey rep k = true ∧
      SetVGPUConfig allParents devices gpu gpuAddr config =
        (some (.unsupportedType gpu gpuAddr k), []) := by
  obtain ⟨k, hkm, hkb, heq⟩ := sanitize_fails rep gpu gpuAddr config [] hbad
  refine ⟨k, hkm, hkb, ?_⟩
  unfold SetVGPUConfig
  rw [hfil]
  show (match sanitizeConfig rep gpu gpuAddr [] config with
    | Except.error e => (some e, [])
    | Except.ok sanitized =>
      ((creationPhase (rep :: parents') gpuAddr sanitized).2,
        ClearVGPUConfig devices gpuAddr ++
          (creationPhase (rep :: parents') gpuAddr sanitized).1)) =
    (some (SetErr.unsupportedType gpu gpuAddr k), [])
  rw [heq]

theorem c4_unsupported_type_no_effects_witness :
    ∃ k, (∃ v, (k, v) ∈ [(['B', 'O', 'G', 'U', 'S', '-', '1', 'Q'], (3 : Int))]) ∧
      badKey ⟨1, 7, [(['T', '4', '-', '1', 'Q'], .val 8)]⟩ k = true ∧
      SetVGPUConfig [⟨1, 7, [(['T', '4', '-', '1', 'Q'], .val 8)]⟩]
          [⟨10, ['T', '4', '-', '1', 'Q'], 7⟩] 0 7
          [(['B', 'O', 'G', 'U', 'S', '-', '1', 'Q'], (3 : Int))] =
        (some (.unsupportedType 0 7 k), []) :=
  c4_unsupported_type_no_effects [⟨1, 7, [(['T', '4', '-', '1', 'Q'], .val 8)]⟩]
    [⟨10, ['T', '4', '-', '1', 'Q'], 7⟩] 0 7
    [(['B', 'O', 'G', 'U', 'S', '-', '1', 'Q'], (3 : Int))]
    ⟨1, 7, [(['T', '4', '-', '1', 'Q'], .val 8)]⟩ [] (by decide) (by decide)

theorem sanitize_ok (rep : MDEVParent) (gpu : Int) (gpuAddr : Nat) :
    ∀ (config acc : VGPUConfigL),
    (∀ e ∈ config, badKey rep e.1 = false) →
    ∃ s, sanitizeConfig rep gpu gpuAddr acc config = .ok s
  | [], acc, _ => ⟨acc, rfl⟩
  | (key, val) :: rest, acc, h => by
    have hrest : ∀ e ∈ rest, badKey rep e.1 = false := fun e he => h e (by simp [he])
    have hk := h (key, val) (by simp)
    rw [sanitizeConfig]
    by_cases hsup : IsMDEVTypeSupported rep key = true
    · rw [if_pos hsup]
      exact sanitize_ok rep gpu gpuAddr rest (upsert acc key val) hrest
    · rw [if_neg hsup]
      have h1 : IsMDEVTypeSupported rep key = false := by
        rcases Bool.eq_false_or_eq_true (IsMDEVTypeSupported rep key) with h2 | h2
        · exact absurd h2 hsup
        · exact h2
      simp only [badKey, h1, Bool.not_false, Bool.true_and, Bool.not_eq_false'] at hk
      rw [if_pos hk]
      exact sanitize_ok rep gpu gpuAddr rest (upsert acc (stripVGPUConfigSuffix key) val) hrest

theorem inlineCreateLoop_no_deletes (t : Str) (gpuAddr : Nat) :
    ∀ (parents : List MDEVParent) (r : Int),
    ∀ eff ∈ (inlineCreateLoop t gpuAddr parents r).1, eff.isDelete = false
  | [], r, eff, heff => by simp [inlineCreateLoop] at heff
  | p :: rest, r, eff, heff => by
    rw [inlineCreateLoop] at heff
    split at heff
    · simp at heff
    · split at heff
      · simp at heff
      · split at heff
        · simp at heff
        · split at heff
          · exact inlineCreateLoop_no_deletes t gpuAddr rest r eff heff
          · simp only at heff
            rcases List.mem_append.mp heff with h1 | h1
            · have := List.eq_of_mem_replicate h1
              subst this
              rfl
            · exact inlineCreateLoop_no_deletes t gpuAddr rest
                (r - min r (GetAvailableVGPUInstances p t).1) eff h1

theorem creationPhase_no_deletes (parents : List MDEVParent) (gpuAddr : Nat) :
    ∀ (cfg : VGPUConfigL),
    ∀ eff ∈ (creationPhase parents gpuAddr cfg).1, eff.isDelete = false
  | [], eff, heff => by simp [creationPhase] at heff
  | (key, val) :: rest, eff, heff => by
    rw [creationPhase] at heff
    split at heff
    · exact inlineCreateLoop_no_deletes key gpuAddr parents val eff heff
    · split at heff
      · exact inlineCreateLoop_no_deletes key gpuAddr parents val eff heff
      · simp only at heff
        rcases List.mem_append.mp heff with h1 | h1
        · exact inlineCreateLoop_no_deletes key gpuAddr parents val eff h1
        · exact creationPhase_no_deletes parents gpuAddr rest eff h1

/-- Claim C9: once sanitization succeeds, the clearing phase of
SetVGPUConfig deletes exactly the existing devices whose physical-function
address equals the target GPU's address — independently of the requested
config, so also devices whose type reappears in it — and deletes no device
of any other physical GPU. -/
theorem c9_clearing_frame
    (allParents : List MDEVParent) (devices : List MdevDevice) (gpu : Int)
    (gpuAddr : Nat) (config : VGPUConfigL) (rep : MDEVParent)
    (parents' : List MDEVParent)
    (hfil : allParents.filter (fun p => p.pfAddr == gpuAddr) = rep :: parents')
    (hgood : ∀ e ∈ config, badKey rep e.1 = false) :
    (SetVGPUConfig allParents devices gpu gpuAddr config).2.filter Effect.isDelete =
      (devices.filter (fun d => d.pfAddr == gpuAddr)).map Effect.delete ∧
    ∀ d : MdevDevice,
      Effect.delete d ∈ (SetVGPUConfig allParents devices gpu gpuAddr config).2 ↔
        d ∈ devices ∧ d.pfAddr = gpuAddr := by
  obtain ⟨s, hs⟩ := sanitize_ok rep gpu gpuAddr config [] hgood
  have hset : SetVGPUConfig allParents devices gpu gpuAddr config =
      ((creationPhase (rep :: parents') gpuAddr s).2,
        ClearVGPUConfig devices gpuAddr ++
          (creationPhase (rep :: parents') gpuAddr s).1) := by
    unfold SetVGPUConfig
    rw [hfil]
    show (match sanitizeConfig rep gpu gpuAddr [] config with
      | Except.error e => (some e, [])
      | Except.ok sanitized =>
        ((creationPhase (rep :: parents') gpuAddr sanitized).2,
          ClearVGPUConfig devices gpuAddr ++
            (creationPhase (rep :: parents') gpuAddr sanitized).1)) = _
    rw [hs]
  rw [hset]
  constructor
  · show (ClearVGPUConfig devices gpuAddr ++
        (creationPhase (rep :: parents') gpuAddr s).1).filter Effect.isDelete = _
    rw [List.filter_append]
    have hclear : (ClearVGPUConfig devices gpuAddr).filter Effect.isDelete =
        (devices.filter (fun d => d.pfAddr == gpuAddr)).map Effect.delete := by
      apply List.filter_eq_self.mpr
      intro eff heff
      obtain ⟨d, _, rfl⟩ := List.mem_map.mp heff
      rfl
    have hcreate : ((creationPhase (rep :: parents') gpuAddr s).1).filter
        Effect.isDelete = [] := by
      apply List.filter_eq_nil_iff.mpr
      intro eff heff
      rw [creationPhase_no_deletes (rep :: parents') gpuAddr s eff heff]
      simp
    rw [hclear, hcreate, List.append_nil]
  · intro d
    show Effect.delete d ∈ ClearVGPUConfig devices gpuAddr ++
        (creationPhase (rep :: parents') gpuAddr s).1 ↔ _
    rw [List.mem_append]
    constructor
    · intro hmem
      rcases hmem with h1 | h1
      · obtain ⟨d2, hd2, heq⟩ := List.mem_map.mp h1
        obtain rfl : d2 = d := by
          injection heq
        have := List.mem_filter.mp hd2
        refine ⟨this.1, ?_⟩
        have hb := this.2
        simpa using hb
      · have := creationPhase_no_deletes (rep :: parents') gpuAddr s _ h1
        simp [Effect.isDelete] at this
    · intro ⟨hmem, hpf⟩
      left
      apply List.mem_map.mpr
      refine ⟨d, List.mem_filter.mpr ⟨hmem, by simpa using hpf⟩, rfl⟩

theorem c9_clearing_frame_witness :
    (SetVGPUConfig [⟨1, 7, [(['T', '4', '-', '1', 'Q'], .val 8)]⟩]
        [⟨10, ['T', '4', '-', '1', 'Q'], 7⟩, ⟨11, ['T', '4', '-', '1', 'Q'], 9⟩]
        0 7 [(['T', '4', '-', '1', 'Q'], (1 : Int))]).2.filter Effect.isDelete =
      ([⟨10, ['T', '4', '-', '1', 'Q'], 7⟩, ⟨11, ['T', '4', '-', '1', 'Q'], 9⟩].filter
        (fun d : MdevDevice => d.pfAddr == 7)).map Effect.delete :=
  (c9_clearing_frame [⟨1, 7, [(['T', '4', '-', '1', 'Q'], .val 8)]⟩]
    [⟨10, ['T', '4', '-', '1', 'Q'], 7⟩, ⟨11, ['T', '4', '-', '1', 'Q'], 9⟩]
    0 7 [(['T', '4', '-', '1', 'Q'], (1 : Int))]
    ⟨1, 7, [(['T', '4', '-', '1', 'Q'], .val 8)]⟩ [] (by decide) (by decide)).1

end VGPUDM
